import Mathlib

/-!
Verification of the socio-pilot autonomous scheduling core.

This file gives a shallow embedding of the repository's scheduling engine:

* `src/utils/timeUtils.ts` — the IST time-normalization utility
  (`toIST`, `fromIST`, `getCurrentIST`, `getISTDayBoundsUTC`);
* `src/services/schedulerManager.ts` (`SchedulerManager`) — `stop`,
  `getStatus`, `processScheduledPosts` (the dispatch loop),
  `loadScheduledPosts` (recovery), `generateContentForToday`,
  `hasContentForToday`, `scheduleContentForPlatform` and `getPostType`.

JavaScript `Date` values are modelled as epoch milliseconds (`Int`).  A
`Date`'s *local* getters (`getHours`, `getDay`, `setHours`, …) render the
epoch through the host machine's timezone; we carry the host offset
`tz : Int` (the value of `Date.prototype.getTimezoneOffset()`, i.e. UTC
minus local, in minutes) as an explicit parameter, so `localView d tz`
is the wall-clock milliseconds that the host's local getters display for
epoch `d`.  There is no DST in the model (fixed offsets), matching the
fixed `+5:30` IST offset the source hard-codes.

Database tables are modelled as pure lists; supabase `update ... eq(id)`
becomes a map over the rows with the matching id, and inserts append.
Network collaborators (content generator, platform publishers) are
oracles supplied through environment records, returning `Except` values:
`Except.error` models a thrown/rejected promise.
-/

namespace SocioPilot

/-! ## Time normalization utility (src/utils/timeUtils.ts) -/

/-- Milliseconds in one day. -/
def msPerDay : Int := 86400000

/-- Source line 7-8: `IST_OFFSET_HOURS = 5.5`, `IST_OFFSET_MS = 5.5*60*60*1000`. -/
def IST_OFFSET_MS : Int := 19800000

/-- Source lines 13-15: `toIST(utcDate) = new Date(utcDate.getTime() + IST_OFFSET_MS)`. -/
def toIST (utcDate : Int) : Int := utcDate + IST_OFFSET_MS

/-- Source lines 20-22: `fromIST(istDate) = new Date(istDate.getTime() - IST_OFFSET_MS)`. -/
def fromIST (istDate : Int) : Int := istDate - IST_OFFSET_MS

/-- Wall-clock milliseconds shown by the host's local getters for epoch `d`,
with host timezone offset `tz` minutes (`getTimezoneOffset()`, UTC − local). -/
def localView (d tz : Int) : Int := d - tz * 60000

/-- Source lines 27-31 (`getCurrentIST`):
`nowUTC = new Date(Date.now() + (new Date().getTimezoneOffset() * 60000))`,
then `toIST(nowUTC)`.  `utcNow` is `Date.now()` (the true UTC epoch). -/
def getCurrentIST (utcNow tz : Int) : Int := toIST (utcNow + tz * 60000)

/-- JS `d.setHours(0,0,0,0)`: floor the host-local wall clock of `d` to the
start of its local day (Int `%` is `emod`, non-negative, so this is a true
floor also for negative epochs). -/
def localDayStart (d tz : Int) : Int :=
  (localView d tz - localView d tz % msPerDay) + tz * 60000

/-- JS `d.setHours(h, m, 0, 0)` on the local wall clock. -/
def setHoursLocal (d tz h m : Int) : Int :=
  localDayStart d tz + h * 3600000 + m * 60000

/-- JS `d.getDay()`: weekday of the local wall-clock rendering of `d`
(0 = Sunday); epoch day 0 (1970-01-01) was a Thursday (= 4). -/
def getDayLocal (d tz : Int) : Int :=
  ((localView d tz).fdiv msPerDay + 4) % 7

/-- JS `d.setDate(d.getDate() + k)`: advance `k` local calendar days; with
fixed offsets (no DST) this is exactly `k` times 24 hours. -/
def addDaysLocal (d k : Int) : Int := d + k * msPerDay

/-- Source lines 55-70 (`getISTDayBoundsUTC`): `setHours(0,0,0,0)` on the
given IST date, one calendar day later for the end, both mapped through
`fromIST`.  Returns `(startUTC, endUTC)`. -/
def getISTDayBoundsUTC (istDate tz : Int) : Int × Int :=
  let startOfDayIST := localDayStart istDate tz
  let endOfDayIST := addDaysLocal startOfDayIST 1
  (fromIST startOfDayIST, fromIST endOfDayIST)

/-! ## Data model (src/services/schedulerManager.ts, lines 7-38) -/

/-- Content payload produced by the content generator (`PostingJob.content`,
source lines 20-25). -/
structure ContentPayload where
  title : String
  content : String
  tags : Option (List String)
  mediaUrl : Option String
deriving DecidableEq

/-- Source lines 17-28 (`interface PostingJob`). -/
structure PostingJob where
  attempts : Nat
  platform : String
  content : ContentPayload
  scheduledTime : Int
  postId : String
deriving DecidableEq

/-- Row of the `content_posts` table, with the columns the scheduler reads
and writes.  `status` is the raw string the source stores
(`scheduled` / `posting` / `published` / `failed`, plus the legacy
`posted` that `hasContentForToday` also queries). -/
structure Post where
  id : String
  user_id : String
  platform_name : String
  post_type : String
  title : String
  content : String
  media_url : Option String
  status : String
  scheduled_for : Option Int
  platform_post_id : Option String
  error_message : Option String
  posted_at : Option Int
deriving DecidableEq

/-- Entry of a `days_of_week` array: the source tolerates both numeric and
numeric-string entries (see the `typeof d === 'string' ? parseInt(d, 10) : d`
normalization at lines 132 and 213). -/
inductive DayEntry where
  | num (n : Int)
  | str (s : String)
deriving DecidableEq

/-- Source lines 7-15 (`interface ScheduleEntry`), a `posting_schedule` row.
`preferred_times := none` models a non-array value (the source guards with
`Array.isArray`). -/
structure ScheduleEntry where
  id : String
  user_id : String
  platform_name : String
  max_posts_per_day : Nat
  preferred_times : Option (List String)
  days_of_week : List DayEntry
  is_active : Bool
deriving DecidableEq

/-- In-memory fields of the `SchedulerManager` singleton (source lines
30-38).  Timer handles are modelled as `Option Nat` (`null` vs. an opaque
handle); `processingJobs` is the `Set<string>` as a duplicate-free list. -/
structure SchedulerState where
  jobs : List PostingJob
  intervalId : Option Nat
  scheduleWatchInterval : Option Nat
  isRunning : Bool
  dailyGenerationScheduled : Bool
  processingJobs : List String
  lastProcessTime : Int
  lastScheduleState : String
deriving DecidableEq

/-- Snapshot returned by `getStatus()` (source lines 532-544). -/
structure SchedulerStatus where
  isRunning : Bool
  scheduledJobs : Nat
  processingJobs : Nat
  lastProcessTime : Int
  nextJob : Option Int
deriving DecidableEq

/-! ## stop() and getStatus() -/

/-- Source lines 83-97 (`stop`): clear both timer handles, set
`isRunning = false`, clear the processing-set, reset `lastProcessTime`
and `lastScheduleState`.  Note the method body contains no assignment to
`this.jobs` and no database call. -/
def SchedulerManager.stop (s : SchedulerState) : SchedulerState :=
  { s with
    intervalId := none
    scheduleWatchInterval := none
    isRunning := false
    processingJobs := []
    lastProcessTime := 0
    lastScheduleState := "" }

/-- Source lines 83-97 together with the persistent store: `stop` performs
no supabase call, so the `content_posts` table passes through unchanged. -/
def SchedulerManager.stopWithStore (s : SchedulerState) (store : List Post) :
    SchedulerState × List Post :=
  (SchedulerManager.stop s, store)

/-- Comparator of the `this.jobs.sort((a, b) => a.scheduledTime - b.scheduledTime)`
call in `getStatus` (source line 534): ascending by `scheduledTime`. -/
def jobLe (a b : PostingJob) : Prop := a.scheduledTime ≤ b.scheduledTime

instance : DecidableRel jobLe := fun a b =>
  inferInstanceAs (Decidable (a.scheduledTime ≤ b.scheduledTime))

instance : IsTotal PostingJob jobLe :=
  ⟨fun a b => le_total a.scheduledTime b.scheduledTime⟩

instance : IsTrans PostingJob jobLe :=
  ⟨fun _ _ _ hab hbc => le_trans hab hbc⟩

/-- Source lines 532-544 (`getStatus`).  `Array.prototype.sort` sorts the
array *in place* (stable, ascending under the numeric comparator), so the
method returns both the snapshot and the mutated scheduler state; the
stable sort is modelled by `List.insertionSort`. -/
def SchedulerManager.getStatus (s : SchedulerState) : SchedulerStatus × SchedulerState :=
  if 0 < s.jobs.length then
    let sorted := s.jobs.insertionSort jobLe
    let nextJob := sorted.head?.map PostingJob.scheduledTime
    ({ isRunning := s.isRunning
       scheduledJobs := sorted.length
       processingJobs := s.processingJobs.length
       lastProcessTime := s.lastProcessTime
       nextJob := nextJob },
     { s with jobs := sorted })
  else
    ({ isRunning := s.isRunning
       scheduledJobs := s.jobs.length
       processingJobs := s.processingJobs.length
       lastProcessTime := s.lastProcessTime
       nextJob := none }, s)

/-! ## Dispatch loop (processScheduledPosts, source lines 403-525) -/

/-- Environment of one dispatch tick: `now` is `Date.now()` at the start of
the tick (a single tick is modelled at one instant), and `publish` is the
oracle behind the seven `platformAPI.postToX` collaborators — `Except.ok`
yields the platform-assigned post id, `Except.error` the thrown message. -/
structure DispatchEnv where
  now : Int
  publish : String → ContentPayload → Except String String

/-- Platforms of the `switch (job.platform)` at source lines 441-465. -/
def supportedPlatforms : List String :=
  ["hashnode", "devto", "twitter", "linkedin", "instagram", "youtube", "reddit"]

/-- Source lines 441-465: dispatch on the platform; the `default` branch
throws `Unsupported platform: <name>`. -/
def platformSwitch (env : DispatchEnv) (platform : String) (content : ContentPayload) :
    Except String String :=
  if supportedPlatforms.contains platform then env.publish platform content
  else Except.error ("Unsupported platform: " ++ platform)

/-- Supabase `update(fields).eq('id', id)` on `content_posts`: rewrite every
row whose `id` matches. -/
def updatePosts (store : List Post) (id : String) (f : Post → Post) : List Post :=
  store.map fun p => if p.id = id then f p else p

/-- Mutable state threaded through the `for (const job of dueJobs)` loop:
the in-memory job list, the processing-set, and the `content_posts` table. -/
structure TickState where
  jobs : List PostingJob
  processingJobs : List String
  store : List Post
deriving DecidableEq

/-- Body of the `for (const job of dueJobs)` loop (source lines 424-524):
re-check the processing-set, insert the id, mark the Post `posting`, run
the platform switch; on success mark the Post `published` and filter the
job out of the in-memory list; on failure increment `attempts`, and either
reschedule at `now + 2^attempts` minutes (when `attempts < 3`) or mark the
Post `failed` with the error message — in both failure branches the job
stays in the in-memory list.  The `finally` clause removes the id from the
processing-set. -/
def processOneJob (env : DispatchEnv) (st : TickState) (job : PostingJob) : TickState :=
  if st.processingJobs.contains job.postId then st
  else
    let processing := job.postId :: st.processingJobs
    let store1 := updatePosts st.store job.postId fun p => { p with status := "posting" }
    match platformSwitch env job.platform job.content with
    | Except.ok platformPostId =>
        let store2 := updatePosts store1 job.postId fun p =>
          { p with
            status := "published"
            platform_post_id := some platformPostId
            posted_at := some env.now }
        let jobs := st.jobs.filter fun j => j.postId ≠ job.postId
        ⟨jobs, processing.erase job.postId, store2⟩
    | Except.error msg =>
        let newAttempts := job.attempts + 1
        if newAttempts < 3 then
          let backoffMs : Int := 2 ^ newAttempts * 60000
          let jobs := st.jobs.map fun j =>
            if j.postId = job.postId then
              { j with attempts := newAttempts, scheduledTime := env.now + backoffMs }
            else j
          ⟨jobs, processing.erase job.postId, store1⟩
        else
          let jobs := st.jobs.map fun j =>
            if j.postId = job.postId then { j with attempts := newAttempts } else j
          let store2 := updatePosts store1 job.postId fun p =>
            { p with status := "failed", error_message := some msg }
          ⟨jobs, processing.erase job.postId, store2⟩

/-- Due-job selection of source lines 416-418: `scheduledTime <= now` and
not currently in the processing-set. -/
def dueJobsOf (jobs : List PostingJob) (processing : List String) (now : Int) :
    List PostingJob :=
  jobs.filter fun job => job.scheduledTime ≤ now && !processing.contains job.postId

/-- Source lines 403-525 (`processScheduledPosts`): skip the tick entirely
when fewer than 30 s have elapsed since the previous one; otherwise record
`lastProcessTime`, select the due jobs once, and run the per-job loop. -/
def SchedulerManager.processScheduledPosts (env : DispatchEnv) (s : SchedulerState)
    (store : List Post) : SchedulerState × List Post :=
  if env.now - s.lastProcessTime < 30000 then (s, store)
  else
    let s1 := { s with lastProcessTime := env.now }
    if s1.jobs.isEmpty then (s1, store)
    else
      let dueJobs := dueJobsOf s1.jobs s1.processingJobs env.now
      if dueJobs.isEmpty then (s1, store)
      else
        let final := dueJobs.foldl (processOneJob env) ⟨s1.jobs, s1.processingJobs, store⟩
        ({ s1 with jobs := final.jobs, processingJobs := final.processingJobs },
         final.store)

/-! ## Recovery (loadScheduledPosts, source lines 370-401) -/

/-- Source lines 383-394: the in-memory job rebuilt from a persisted
`scheduled` Post. -/
def jobOfPost (post : Post) : PostingJob :=
  { attempts := 0
    platform := post.platform_name
    content :=
      { title := post.title
        content := post.content
        tags := if post.platform_name = "hashnode" || post.platform_name = "devto"
                then some [] else none
        mediaUrl := match post.media_url with
          | some m => if m = "" then none else some m
          | none => none }
    scheduledTime := post.scheduled_for.getD 0
    postId := post.id }

/-- Source lines 370-401 (`loadScheduledPosts`): query the user's
`content_posts` rows with `status = 'scheduled'` and a non-null
`scheduled_for`, and *replace* the in-memory job list with one job per
row, each with `attempts = 0`. -/
def SchedulerManager.loadScheduledPosts (userId : String) (store : List Post)
    (s : SchedulerState) : SchedulerState :=
  let posts := store.filter fun p =>
    p.user_id = userId && p.status = "scheduled" && p.scheduled_for.isSome
  { s with jobs := posts.map jobOfPost }

/-! ## Content generation and slot computation (source lines 176-368) -/

/-- Value of a run of decimal digit characters. -/
def digitsVal (l : List Char) : Nat :=
  l.foldl (fun acc c => 10 * acc + (c.toNat - 48)) 0

/-- JS `Number(s)` on the components of a preferred-time string: the value
of an all-digit non-empty string, `none` (modelling `NaN`) otherwise. -/
def jsNumberNat (l : List Char) : Option Nat :=
  if l.isEmpty then none
  else if l.all Char.isDigit then some (digitsVal l) else none

/-- Splitter behind JS `String.prototype.split` with a one-character
separator, on the character list of the string. -/
def splitCharAux (c : Char) : List Char → List Char → List (List Char)
  | [], acc => [acc.reverse]
  | x :: xs, acc =>
      if x = c then acc.reverse :: splitCharAux c xs []
      else splitCharAux c xs (x :: acc)

/-- JS `s.split(c)` for a one-character separator. -/
def splitChar (c : Char) (s : String) : List (List Char) :=
  splitCharAux c s.data []

/-- Source line 297: `const [hours, minutes] = preferredTimes[i].split(':').map(Number)`.
A missing or malformed component is JS `NaN` (an invalid Date downstream);
it is modelled as 0, which no claim exercises. -/
def parseTimeHM (s : String) : Int × Int :=
  let parts := splitChar ':' s
  (Int.ofNat (((parts.get? 0).bind jsNumberNat).getD 0),
   Int.ofNat (((parts.get? 1).bind jsNumberNat).getD 0))

/-- JS `parseInt(s, 10)` on the strings relevant here: the value of the
leading run of digits, `none` (modelling `NaN`) when there is none. -/
def parseIntJs (s : String) : Option Int :=
  let ds := s.data.takeWhile Char.isDigit
  if ds.isEmpty then none else some (Int.ofNat (digitsVal ds))

/-- Normalization applied at source lines 132 and 213:
`typeof d === 'string' ? parseInt(d, 10) : d`. -/
def normalizeDay : DayEntry → Option Int
  | DayEntry.num n => some n
  | DayEntry.str s => parseIntJs s

/-- Source lines 310-317: `let daysToAdd = 1; for (let j = 1; j <= 7; j++)`
taking the first `j` with `daysOfWeek.includes((currentDayOfWeek + j) % 7)`.
`includes` uses strict equality against the numeric `checkDay`, so only
numeric entries can match — this site does *not* normalize string entries. -/
def findDaysToAdd (daysOfWeek : List DayEntry) (currentDayOfWeek : Int) : Int :=
  match (List.range' 1 7).find? (fun j =>
      daysOfWeek.contains (DayEntry.num ((currentDayOfWeek + (j : Int)) % 7))) with
  | some j => (j : Int)
  | none => 1

/-- Source lines 296-323: build today's IST instant at the slot's preferred
time; if it is `<=` IST now, advance by `findDaysToAdd` calendar days. -/
def nextScheduledTimeIST (schedule : ScheduleEntry) (istNow tz : Int)
    (timeStr : String) : Int :=
  let hm := parseTimeHM timeStr
  let scheduledTimeIST := setHoursLocal istNow tz hm.1 hm.2
  if scheduledTimeIST ≤ istNow then
    addDaysLocal scheduledTimeIST
      (findDaysToAdd schedule.days_of_week (getDayLocal istNow tz))
  else scheduledTimeIST

/-- Environment of a generation run: the authenticated user, the clock
(`Date.now()` and the host timezone offset), the user's `ai_settings.topics`
row, the random topic index chooser (`Math.floor(Math.random() * n)` at
slot `i`), the content-generation collaborator, and the id the database
assigns to a newly inserted `content_posts` row (indexed by the table size
at insertion time). -/
structure GenEnv where
  userId : String
  utcNow : Int
  tz : Int
  aiTopics : Option (List String)
  pick : Nat → Nat
  generate : String → String → Except String ContentPayload
  freshId : Nat → String

/-- Value of `getCurrentIST()` during a generation run (modelled as one
instant for the whole run). -/
def GenEnv.istNow (env : GenEnv) : Int := getCurrentIST env.utcNow env.tz

/-- Source lines 546-557 (`getPostType`): lookup table with default
`social`. -/
def SchedulerManager.getPostType (platform : String) : String :=
  if platform = "hashnode" then "blog"
  else if platform = "devto" then "blog"
  else if platform = "twitter" then "social"
  else if platform = "linkedin" then "social"
  else if platform = "instagram" then "social"
  else if platform = "youtube" then "video"
  else if platform = "reddit" then "social"
  else "social"

/-- Fallback topics of source lines 276-278. -/
def defaultTopics : List String := ["Technology", "Programming", "AI", "Web Development"]

/-- Fallback preferred times of source lines 281-283. -/
def defaultTimes : List String := ["09:00", "14:00", "18:00"]

/-- Body of the slot loop of `scheduleContentForPlatform` (source lines
288-364): pick a topic, call the generator; on failure notify and continue
(state unchanged); on success compute the slot instant, convert to UTC,
insert the `content_posts` row with status `scheduled`, and push the
in-memory job. -/
def scheduleSlot (env : GenEnv) (schedule : ScheduleEntry) (topics : List String)
    (preferredTimes : List String) (st : List PostingJob × List Post) (i : Nat) :
    List PostingJob × List Post :=
  let randomTopic := topics.getD (env.pick i % topics.length) ""
  match env.generate schedule.platform_name randomTopic with
  | Except.error _ => st
  | Except.ok content =>
      let scheduledTimeIST :=
        nextScheduledTimeIST schedule (GenEnv.istNow env) env.tz (preferredTimes.getD i "")
      let scheduledTimeUTC := fromIST scheduledTimeIST
      let newId := env.freshId st.2.length
      (st.1 ++ [{ attempts := 0
                  platform := schedule.platform_name
                  content := content
                  scheduledTime := scheduledTimeUTC
                  postId := newId }],
       st.2 ++ [{ id := newId
                  user_id := schedule.user_id
                  platform_name := schedule.platform_name
                  post_type := SchedulerManager.getPostType schedule.platform_name
                  title := content.title
                  content := content.content
                  media_url := content.mediaUrl
                  status := "scheduled"
                  scheduled_for := some scheduledTimeUTC
                  platform_post_id := none
                  error_message := none
                  posted_at := none }])

/-- Source lines 267-368 (`scheduleContentForPlatform`): resolve topics
(`ai_settings.topics` when a non-empty array, else the default set), let
`maxPosts = schedule.max_posts_per_day || 3` (JS `||`: the default also
replaces 0) and `preferredTimes` (defaulted when not an array), and run
the slot loop for `i` in `[0, min maxPosts preferredTimes.length)`. -/
def SchedulerManager.scheduleContentForPlatform (env : GenEnv) (schedule : ScheduleEntry)
    (jobs : List PostingJob) (store : List Post) : List PostingJob × List Post :=
  let topics := match env.aiTopics with
    | some ts => if 0 < ts.length then ts else defaultTopics
    | none => defaultTopics
  let maxPosts := if schedule.max_posts_per_day = 0 then 3 else schedule.max_posts_per_day
  let preferredTimes := schedule.preferred_times.getD defaultTimes
  (List.range (min maxPosts preferredTimes.length)).foldl
    (scheduleSlot env schedule topics preferredTimes) (jobs, store)

/-- Source lines 240-265 (`hasContentForToday`): any `content_posts` row of
the user and platform with status in `{posted, published}` and
`scheduled_for` inside today's IST day window `[startUTC, endUTC)`. -/
def SchedulerManager.hasContentForToday (env : GenEnv) (store : List Post)
    (platformName : String) : Bool :=
  let bounds := getISTDayBoundsUTC (GenEnv.istNow env) env.tz
  store.any fun p =>
    p.user_id = env.userId && p.platform_name = platformName &&
    (p.status = "posted" || p.status = "published") &&
    (match p.scheduled_for with
     | some t => bounds.1 ≤ t && t < bounds.2
     | none => false)

/-- Source lines 176-238 (`generateContentForToday`): keep the user's
active schedules whose normalized `days_of_week` contains the current IST
weekday, and for each one lacking content for today run
`scheduleContentForPlatform`. -/
def SchedulerManager.generateContentForToday (env : GenEnv)
    (schedules : List ScheduleEntry) (jobs : List PostingJob) (store : List Post) :
    List PostingJob × List Post :=
  let currentDayOfWeek := getDayLocal (GenEnv.istNow env) env.tz
  let todaySchedules := (schedules.filter fun sch => sch.is_active).filter fun schedule =>
    (schedule.days_of_week.map normalizeDay).contains (some currentDayOfWeek)
  todaySchedules.foldl
    (fun st schedule =>
      if SchedulerManager.hasContentForToday env st.2 schedule.platform_name then st
      else SchedulerManager.scheduleContentForPlatform env schedule st.1 st.2)
    (jobs, store)

/-! ## Concrete exemplar inputs used by the closed theorems -/

/-- Sample generated content payload. -/
def exPayload : ContentPayload :=
  { title := "T", content := "B", tags := none, mediaUrl := none }

/-- Sample persisted scheduled Post with id `p1`. -/
def exPostP1 : Post :=
  { id := "p1", user_id := "u", platform_name := "devto", post_type := "blog"
    title := "T", content := "B", media_url := none, status := "scheduled"
    scheduled_for := some 0, platform_post_id := none, error_message := none
    posted_at := none }

/-- Dispatch environment whose publisher always rejects with `boom`. -/
def exFailEnv : DispatchEnv :=
  { now := 100000, publish := fun _ _ => Except.error "boom" }

/-- Due job for Post `p1` that has already failed twice. -/
def exJobC1 : PostingJob :=
  { attempts := 2, platform := "devto", content := exPayload
    scheduledTime := 0, postId := "p1" }

/-- Running scheduler holding the twice-failed job. -/
def exStateC1 : SchedulerState :=
  { jobs := [exJobC1], intervalId := some 1, scheduleWatchInterval := some 2
    isRunning := true, dailyGenerationScheduled := true
    processingJobs := [], lastProcessTime := 0, lastScheduleState := "" }

/-- Due job for Post `p1` with no failures yet. -/
def exJobC2 : PostingJob := { exJobC1 with attempts := 0 }

/-- Running scheduler holding the fresh job. -/
def exStateC2 : SchedulerState := { exStateC1 with jobs := [exJobC2] }

/-- Due job for Post `p1` after one failure. -/
def exJobC2b : PostingJob := { exJobC1 with attempts := 1 }

/-- Running scheduler holding the once-failed job. -/
def exStateC2b : SchedulerState := { exStateC1 with jobs := [exJobC2b] }

/-- Job scheduled later (epoch 200) but listed first. -/
def exJobLate : PostingJob :=
  { attempts := 0, platform := "devto", content := exPayload
    scheduledTime := 200, postId := "a" }

/-- Job scheduled earlier (epoch 100) but listed second. -/
def exJobEarly : PostingJob :=
  { attempts := 0, platform := "twitter", content := exPayload
    scheduledTime := 100, postId := "b" }

/-- Scheduler whose job list is not sorted by scheduled time. -/
def exStateC9 : SchedulerState := { exStateC1 with jobs := [exJobLate, exJobEarly] }

/-- Generation environment on a UTC host at epoch 0 (05:30 IST, a
Thursday) whose generator always succeeds with `exPayload`. -/
def exGenOkEnv : GenEnv :=
  { userId := "u", utcNow := 0, tz := 0, aiTopics := some ["AI"]
    pick := fun _ => 0, generate := fun _ _ => Except.ok exPayload
    freshId := fun _ => "new" }

/-- Active schedule for `devto` on Thursdays with two preferred times. -/
def exCfg : ScheduleEntry :=
  { id := "s1", user_id := "u", platform_name := "devto"
    max_posts_per_day := 2, preferred_times := some ["09:00", "18:00"]
    days_of_week := [DayEntry.num 4], is_active := true }

/-- Same schedule with `max_posts_per_day = 0` and one preferred time. -/
def exCfgZero : ScheduleEntry :=
  { exCfg with max_posts_per_day := 0, preferred_times := some ["09:00"] }

/-- Schedule whose `days_of_week` holds the numeric-string entry `"3"`. -/
def exCfgStrDays : ScheduleEntry := { exCfg with days_of_week := [DayEntry.str "3"] }

/-- Schedule whose `days_of_week` holds the numeric entry `3`. -/
def exCfgNumDays : ScheduleEntry := { exCfg with days_of_week := [DayEntry.num 3] }

/-- IST instant 1970-01-04 10:00 (a Sunday, weekday 0, with `tz = 0`). -/
def exIstSunday10 : Int := 295200000

/-! ## Theorems about the time utility (claims C5, C7, C8) -/

/-- C8: for every instant `t`, `toUtc (toLocal t) = t` and
`toLocal (toUtc t) = t` — the fixed +5:30 shift and its inverse are exact
mutual inverses on millisecond timestamps. -/
theorem toIST_fromIST_roundTrip (t : Int) :
    fromIST (toIST t) = t ∧ toIST (fromIST t) = t := by
  unfold toIST fromIST
  omega

/-- C7: for every local instant `t` (and every host timezone offset `tz`),
`getISTDayBoundsUTC` returns a half-open UTC interval of length exactly 24
hours containing `fromIST t`. -/
theorem getISTDayBoundsUTC_spec (t tz : Int) :
    (getISTDayBoundsUTC t tz).2 - (getISTDayBoundsUTC t tz).1 = msPerDay ∧
    (getISTDayBoundsUTC t tz).1 ≤ fromIST t ∧
    fromIST t < (getISTDayBoundsUTC t tz).2 := by
  have h1 : 0 ≤ (t - tz * 60000) % 86400000 :=
    Int.emod_nonneg _ (by norm_num)
  have h2 : (t - tz * 60000) % 86400000 < 86400000 :=
    Int.emod_lt_of_pos _ (by norm_num)
  simp only [getISTDayBoundsUTC, localDayStart, addDaysLocal, fromIST, localView,
    msPerDay, IST_OFFSET_MS]
  omega

/-- C5 counterexample: on a host whose timezone offset is 60 minutes
(`getTimezoneOffset() = 60`, i.e. UTC−1), the epoch value returned by
`getCurrentIST` at true UTC epoch 0 is not `0 + IST_OFFSET_MS`: the
runtime timezone adjustment `getTimezoneOffset() * 60000` shifts it. -/
theorem getCurrentIST_not_fixed_shift :
    getCurrentIST 0 60 ≠ 0 + IST_OFFSET_MS := by decide

/-- C5 amended: `getCurrentIST` first adds the host's runtime timezone
offset and then the fixed +5:30 shift, so (a) the value rendered by the
host's *local* getters equals system UTC + 5:30 for every host timezone
setting, and (b) the raw epoch value equals system UTC + 5:30 exactly on
a host whose timezone offset is zero. -/
theorem getCurrentIST_localView_spec (utcNow tz : Int) :
    localView (getCurrentIST utcNow tz) tz = utcNow + IST_OFFSET_MS ∧
    getCurrentIST utcNow 0 = utcNow + IST_OFFSET_MS := by
  unfold getCurrentIST toIST localView
  omega

/-! ## Dispatch-loop theorems (claims C1, C2) -/

/-- C1 (code bug witnessed): when the job for Post `p1` fails its third
consecutive publish attempt, the dispatcher marks the Post `failed` with
the final error message, but the job is *not* removed from the in-memory
job list — it stays with `attempts = 3` and is selected as due again on
the next 60-second tick. -/
theorem exhaustedRetryKeepsJob :
    (SchedulerManager.processScheduledPosts exFailEnv exStateC1 [exPostP1]).2 =
      [{ exPostP1 with status := "failed", error_message := some "boom" }] ∧
    (SchedulerManager.processScheduledPosts exFailEnv exStateC1 [exPostP1]).1.jobs =
      [{ exJobC1 with attempts := 3 }] ∧
    dueJobsOf
      (SchedulerManager.processScheduledPosts exFailEnv exStateC1 [exPostP1]).1.jobs
      (SchedulerManager.processScheduledPosts exFailEnv exStateC1 [exPostP1]).1.processingJobs
      (exFailEnv.now + 60000) =
      [{ exJobC1 with attempts := 3 }] := by decide

/-- C2 (code bug witnessed): the delay applied after the first failed
publish attempt is `2^1 = 2` minutes, not 1 minute, and after the second
it is `2^2 = 4` minutes — the code computes `Math.pow(2, attempts)` after
incrementing `attempts`, contradicting its own `1m, 2m, 4m` comment (and
after the third failure no delay is applied at all: the Post is marked
`failed`). -/
theorem firstRetryDelayIsTwoMinutes :
    (SchedulerManager.processScheduledPosts exFailEnv exStateC2 [exPostP1]).1.jobs =
      [{ exJobC2 with attempts := 1, scheduledTime := exFailEnv.now + 2 * 60000 }] ∧
    (SchedulerManager.processScheduledPosts exFailEnv exStateC2b [exPostP1]).1.jobs =
      [{ exJobC2b with attempts := 2, scheduledTime := exFailEnv.now + 4 * 60000 }] ∧
    exFailEnv.now + 2 * 60000 ≠ exFailEnv.now + 1 * 60000 := by decide

/-! ## stop() theorems (claim C3) -/

/-- C3 counterexample: stopping a scheduler that holds one in-memory job
leaves the job list non-empty — `stop` never assigns `this.jobs`. -/
theorem stop_leaves_jobs_nonempty :
    (SchedulerManager.stop exStateC1).jobs ≠ [] := by decide

/-- C3 amended: `stop` cancels both periodic timers, empties the
processing-set, resets the rate-limit bookkeeping (`lastProcessTime`,
`lastScheduleState`) and mutates no persisted Post row, but it leaves the
in-memory job list unchanged rather than clearing it. -/
theorem stop_spec (s : SchedulerState) (store : List Post) :
    (SchedulerManager.stop s).intervalId = none ∧
    (SchedulerManager.stop s).scheduleWatchInterval = none ∧
    (SchedulerManager.stop s).isRunning = false ∧
    (SchedulerManager.stop s).processingJobs = [] ∧
    (SchedulerManager.stop s).lastProcessTime = 0 ∧
    (SchedulerManager.stop s).lastScheduleState = "" ∧
    (SchedulerManager.stop s).jobs = s.jobs ∧
    (SchedulerManager.stopWithStore s store).2 = store := by
  simp [SchedulerManager.stop, SchedulerManager.stopWithStore]

/-! ## Weekday rollover theorem (claim C6) -/

/-- C6 (code bug witnessed): at 10:00 IST on a Sunday with the 09:00 slot
already past, a schedule whose `days_of_week` is the numeric-string
`["3"]` is advanced by exactly 1 day (to Monday, a day *not* in the set)
because the rollover search compares the numeric `checkDay` against the
raw entries without the normalization used elsewhere, whereas the numeric
`[3]` is correctly advanced by 3 days to Wednesday; normalization would
have made the two entries equal. -/
theorem rolloverIgnoresStringDays :
    nextScheduledTimeIST exCfgStrDays exIstSunday10 0 "09:00"
      = 291600000 + 1 * msPerDay ∧
    nextScheduledTimeIST exCfgNumDays exIstSunday10 0 "09:00"
      = 291600000 + 3 * msPerDay ∧
    normalizeDay (DayEntry.str "3") = normalizeDay (DayEntry.num 3) := by decide

/-! ## Daily generation theorems (claim C4) -/

theorem scheduleSlot_length (env : GenEnv) (schedule : ScheduleEntry)
    (topics : List String) (preferredTimes : List String)
    (st : List PostingJob × List Post) (i : Nat)
    (hgen : ∀ pl t, (env.generate pl t).isOk = true) :
    ((scheduleSlot env schedule topics preferredTimes st i).2).length
      = st.2.length + 1 := by
  simp only [scheduleSlot]
  cases hg : env.generate schedule.platform_name
      (topics.getD (env.pick i % topics.length) "") with
  | error e =>
      have hok := hgen schedule.platform_name (topics.getD (env.pick i % topics.length) "")
      rw [hg] at hok
      exact absurd hok (by simp [Except.isOk, Except.toBool])
  | ok content => simp

theorem scheduleSlot_mem (env : GenEnv) (schedule : ScheduleEntry)
    (topics : List String) (preferredTimes : List String)
    (st : List PostingJob × List Post) (i : Nat) (p : Post)
    (hp : p ∈ (scheduleSlot env schedule topics preferredTimes st i).2) :
    p ∈ st.2 ∨ (p.status = "scheduled" ∧ p.platform_name = schedule.platform_name) := by
  simp only [scheduleSlot] at hp
  cases hg : env.generate schedule.platform_name
      (topics.getD (env.pick i % topics.length) "") <;> rw [hg] at hp
  case error e => exact Or.inl hp
  case ok content =>
    simp only [List.mem_append, List.mem_singleton] at hp
    rcases hp with hp | rfl
    · exact Or.inl hp
    · exact Or.inr ⟨rfl, rfl⟩

theorem scheduleSlot_foldl_length (env : GenEnv) (schedule : ScheduleEntry)
    (topics : List String) (preferredTimes : List String)
    (hgen : ∀ pl t, (env.generate pl t).isOk = true) :
    ∀ (l : List Nat) (st : List PostingJob × List Post),
      ((l.foldl (scheduleSlot env schedule topics preferredTimes) st).2).length
        = st.2.length + l.length := by
  intro l
  induction l with
  | nil => intro st; simp
  | cons i tl ih =>
      intro st
      rw [List.foldl_cons, ih, scheduleSlot_length env schedule topics preferredTimes st i hgen]
      simp only [List.length_cons]
      omega

theorem scheduleSlot_foldl_mem (env : GenEnv) (schedule : ScheduleEntry)
    (topics : List String) (preferredTimes : List String) :
    ∀ (l : List Nat) (st : List PostingJob × List Post) (p : Post),
      p ∈ (l.foldl (scheduleSlot env schedule topics preferredTimes) st).2 →
      p ∈ st.2 ∨ (p.status = "scheduled" ∧ p.platform_name = schedule.platform_name) := by
  intro l
  induction l with
  | nil => intro st p hp; exact Or.inl hp
  | cons i tl ih =>
      intro st p hp
      rw [List.foldl_cons] at hp
      rcases ih _ p hp with hmem | hnew
      · exact scheduleSlot_mem env schedule topics preferredTimes st i p hmem
      · exact Or.inr hnew

theorem scheduleContentForPlatform_count (env : GenEnv) (schedule : ScheduleEntry)
    (jobs : List PostingJob) (store : List Post)
    (hgen : ∀ pl t, (env.generate pl t).isOk = true) :
    ((SchedulerManager.scheduleContentForPlatform env schedule jobs store).2).length
      = store.length +
        min (if schedule.max_posts_per_day = 0 then 3 else schedule.max_posts_per_day)
          (schedule.preferred_times.getD defaultTimes).length ∧
    ∀ p ∈ (SchedulerManager.scheduleContentForPlatform env schedule jobs store).2,
      p ∈ store ∨ (p.status = "scheduled" ∧ p.platform_name = schedule.platform_name) := by
  unfold SchedulerManager.scheduleContentForPlatform
  constructor
  · rw [scheduleSlot_foldl_length _ _ _ _ hgen]
    simp
  · intro p hp
    exact scheduleSlot_foldl_mem _ _ _ _ _ _ p hp

/-- C4 counterexample: a schedule with `maxPostsPerDay = 0` and one
preferred time (active today, empty store, generator always succeeding)
yields 1 new Post, not `min(maxPostsPerDay, preferredTimes.length) = 0` —
JS `schedule.max_posts_per_day || 3` replaces 0 by the default 3. -/
theorem maxPostsZeroUsesDefault :
    ¬ ((SchedulerManager.generateContentForToday exGenOkEnv [exCfgZero] [] []).2).length
        = min exCfgZero.max_posts_per_day
            ((exCfgZero.preferred_times.getD defaultTimes).length) := by decide

/-- C4 amended: for every `ScheduleConfig` with `maxPostsPerDay ≥ 1` whose
`daysOfWeek` contains the current local weekday, with no existing
posted/published Post inside today's local-day window and with every
content-generation call succeeding, daily generation creates exactly
`min(maxPostsPerDay, preferredTimes.length)` new Posts, all with status
`scheduled`, for that platform.  (When `maxPostsPerDay = 0` the code
substitutes the default 3, as the counterexample shows.) -/
theorem generateContentForToday_count (env : GenEnv) (cfg : ScheduleEntry)
    (jobs : List PostingJob) (store : List Post) (pts : List String)
    (hactive : cfg.is_active = true)
    (hpts : cfg.preferred_times = some pts)
    (hday : ((cfg.days_of_week.map normalizeDay).contains
        (some (getDayLocal (GenEnv.istNow env) env.tz))) = true)
    (hnocontent : SchedulerManager.hasContentForToday env store cfg.platform_name = false)
    (hgen : ∀ pl t, (env.generate pl t).isOk = true)
    (hmax : cfg.max_posts_per_day ≠ 0) :
    ((SchedulerManager.generateContentForToday env [cfg] jobs store).2).length
        = store.length + min cfg.max_posts_per_day pts.length ∧
    ∀ p ∈ (SchedulerManager.generateContentForToday env [cfg] jobs store).2,
      p ∈ store ∨ (p.status = "scheduled" ∧ p.platform_name = cfg.platform_name) := by
  have hone : SchedulerManager.generateContentForToday env [cfg] jobs store
      = SchedulerManager.scheduleContentForPlatform env cfg jobs store := by
    have hday' := hday
    simp at hday'
    unfold SchedulerManager.generateContentForToday
    simp [hactive, hday', hnocontent]
  rw [hone]
  have hcount := scheduleContentForPlatform_count env cfg jobs store hgen
  rw [hpts] at hcount
  simp only [Option.getD_some] at hcount
  rw [if_neg hmax] at hcount
  exact hcount

/-- C4 witness: the amended statement instantiated on the Thursday
schedule `exCfg` (two preferred times, `maxPostsPerDay = 2`, empty store,
always-succeeding generator): exactly `min 2 2` new scheduled Posts. -/
theorem generateContentForToday_count_witness :
    ((SchedulerManager.generateContentForToday exGenOkEnv [exCfg] [] []).2).length
        = ([] : List Post).length
          + min exCfg.max_posts_per_day (["09:00", "18:00"] : List String).length ∧
    ∀ p ∈ (SchedulerManager.generateContentForToday exGenOkEnv [exCfg] [] []).2,
      p ∈ ([] : List Post) ∨
        (p.status = "scheduled" ∧ p.platform_name = exCfg.platform_name) :=
  generateContentForToday_count exGenOkEnv exCfg [] [] ["09:00", "18:00"]
    rfl rfl (by decide) (by decide) (fun _ _ => rfl) (by decide)

/-! ## getStatus theorems (claim C9) -/

/-- C9 counterexample: on a scheduler holding a later-scheduled job before
an earlier-scheduled one, `getStatus` changes the order of the in-memory
job list (the in-place `Array.prototype.sort`), so it is not read-only. -/
theorem getStatus_reorders_jobs :
    ((SchedulerManager.getStatus exStateC9).2).jobs ≠ exStateC9.jobs := by decide

/-- C9 amended: `getStatus` reports `isRunning`, both job counts and, as
`nextJob`, the earliest `scheduledTime` among in-memory jobs (or null when
there are none), and it leaves `isRunning`, the processing-set, the
rate-limit bookkeeping and the *membership* of the job list unchanged —
but it sorts the in-memory job list in place by `scheduledTime`, so the
list order (which determines dispatch processing order) may change. -/
theorem getStatus_eq_of_pos (s : SchedulerState) (h : 0 < s.jobs.length) :
    SchedulerManager.getStatus s =
      ({ isRunning := s.isRunning
         scheduledJobs := (s.jobs.insertionSort jobLe).length
         processingJobs := s.processingJobs.length
         lastProcessTime := s.lastProcessTime
         nextJob := (s.jobs.insertionSort jobLe).head?.map PostingJob.scheduledTime },
       { s with jobs := s.jobs.insertionSort jobLe }) := by
  unfold SchedulerManager.getStatus
  rw [if_pos h]

theorem getStatus_spec (s : SchedulerState) :
    ((SchedulerManager.getStatus s).1).isRunning = s.isRunning ∧
    ((SchedulerManager.getStatus s).1).scheduledJobs = s.jobs.length ∧
    ((SchedulerManager.getStatus s).1).processingJobs = s.processingJobs.length ∧
    ((SchedulerManager.getStatus s).2).isRunning = s.isRunning ∧
    ((SchedulerManager.getStatus s).2).processingJobs = s.processingJobs ∧
    ((SchedulerManager.getStatus s).2).lastProcessTime = s.lastProcessTime ∧
    ((SchedulerManager.getStatus s).2).jobs.Perm s.jobs ∧
    (s.jobs = [] → ((SchedulerManager.getStatus s).1).nextJob = none) ∧
    (∀ j ∈ s.jobs, ∃ m, ((SchedulerManager.getStatus s).1).nextJob = some m ∧
      m ≤ j.scheduledTime ∧ ∃ j0 ∈ s.jobs, j0.scheduledTime = m) := by
  by_cases h : 0 < s.jobs.length
  · have hperm := List.perm_insertionSort jobLe s.jobs
    have hsorted := List.sorted_insertionSort jobLe s.jobs
    obtain ⟨h0, rest, heq⟩ : ∃ h0 rest, s.jobs.insertionSort jobLe = h0 :: rest := by
      cases hh : s.jobs.insertionSort jobLe with
      | nil =>
          exfalso
          have := hperm.length_eq
          rw [hh] at this
          simp at this
          omega
      | cons a l => exact ⟨a, l, rfl⟩
    rw [getStatus_eq_of_pos s h]
    refine ⟨rfl, hperm.length_eq, rfl, rfl, rfl, rfl, hperm, ?_, ?_⟩
    · intro hnil; rw [hnil] at h; simp at h
    · intro j hj
      refine ⟨h0.scheduledTime, by rw [heq]; rfl, ?_, h0, ?_, rfl⟩
      · have hjmem : j ∈ s.jobs.insertionSort jobLe := hperm.mem_iff.mpr hj
        rw [heq] at hjmem hsorted
        rcases List.mem_cons.mp hjmem with rfl | hjr
        · exact le_refl _
        · exact List.rel_of_pairwise_cons hsorted hjr
      · have hh0 : h0 ∈ s.jobs.insertionSort jobLe := by
          rw [heq]; exact List.mem_cons_self _ _
        exact hperm.mem_iff.mp hh0
  · have hnil : s.jobs = [] := by
      cases hs : s.jobs with
      | nil => rfl
      | cons a l => rw [hs] at h; simp at h
    unfold SchedulerManager.getStatus
    rw [if_neg h]
    simp [hnil]

/-- C9 witness: the amended statement instantiated on the concrete
two-job scheduler, discharging the membership hypothesis for the
later-scheduled job. -/
theorem getStatus_spec_witness :
    ∃ m, ((SchedulerManager.getStatus exStateC9).1).nextJob = some m ∧
      m ≤ exJobLate.scheduledTime ∧ ∃ j0 ∈ exStateC9.jobs, j0.scheduledTime = m := by
  have h := getStatus_spec exStateC9
  exact h.2.2.2.2.2.2.2.2 exJobLate (by decide)

/-! ## Recovery theorems (claim C10) -/

/-- C10: the recovery step rebuilds exactly one in-memory job per persisted
`scheduled` Post of the user — in table order, keyed by the Post id — and
every rebuilt job has `attempts = 0`, so publish retry counts accumulated
before a restart never carry over; stated under the data-model invariant
that a Post's `scheduledFor` is always present. -/
theorem loadScheduledPosts_resets_attempts (userId : String) (store : List Post)
    (s : SchedulerState)
    (h : ∀ p ∈ store, p.status = "scheduled" → p.scheduled_for.isSome) :
    (SchedulerManager.loadScheduledPosts userId store s).jobs.map PostingJob.postId =
      (store.filter fun p => p.user_id = userId && p.status = "scheduled").map Post.id ∧
    ∀ j ∈ (SchedulerManager.loadScheduledPosts userId store s).jobs, j.attempts = 0 := by
  unfold SchedulerManager.loadScheduledPosts
  have hfeq : (store.filter fun p =>
        p.user_id = userId && p.status = "scheduled" && p.scheduled_for.isSome)
      = store.filter fun p => p.user_id = userId && p.status = "scheduled" := by
    apply List.filter_congr
    intro p hp
    by_cases h1 : p.user_id = userId
    · by_cases h2 : p.status = "scheduled"
      · have h3 := h p hp h2
        simp [h1, h2, h3]
      · simp [h2]
    · simp [h1]
  constructor
  · simp only [hfeq, List.map_map]
    rfl
  · intro j hj
    simp only [List.mem_map] at hj
    obtain ⟨p, _, rfl⟩ := hj
    rfl

/-- C10 witness: recovery over a one-row store holding the scheduled Post
`p1` rebuilds exactly the job for `p1` with `attempts = 0`. -/
theorem loadScheduledPosts_resets_attempts_witness :
    (SchedulerManager.loadScheduledPosts "u" [exPostP1] exStateC1).jobs.map
        PostingJob.postId =
      ([exPostP1].filter fun p => p.user_id = "u" && p.status = "scheduled").map Post.id ∧
    ∀ j ∈ (SchedulerManager.loadScheduledPosts "u" [exPostP1] exStateC1).jobs,
      j.attempts = 0 :=
  loadScheduledPosts_resets_attempts "u" [exPostP1] exStateC1 (by decide)

end SocioPilot
